import Mathlib

/-
Verification of `pyathena/pandas/result_set.py` (class `AthenaPandasResultSet`).

The Python class materializes an Athena query result into a pandas DataFrame
once, at construction, and then serves cursor-style access (`fetchone`,
`fetchmany`, `fetchall`) and bulk access (`as_pandas`) from that one table.
The shallow embedding below models

* a DataFrame as its list of records (`_df.to_dict("records")`), each record
  being a function from column name to cell value;
* the result-set object as a structure carrying exactly the fields of the
  Python instance that the methods read or write;
* the external collaborators (importlib, s3fs, pandas readers, the manifest
  enumeration inherited from the base class) as an explicit environment of
  functions, since those perform I/O;
* Python exceptions as an `Except` result, and `_logger.exception` calls as an
  explicit list of emitted log messages;
* Python string methods (`strip`, `upper`, `startswith`, `endswith`, `split`,
  `join`) as executable functions over `List Char`, so that every definition
  evaluates inside the kernel.
-/

namespace PyAthenaPandas

/-! ## Python string primitives -/

/-- Embeds Python `str.startswith(pre)`: boolean prefix test on the
character sequence. -/
def pyStartsWith (s pre : String) : Bool :=
  pre.data.isPrefixOf s.data

/-- Embeds Python `str.endswith(suf)`: boolean suffix test on the
character sequence. -/
def pyEndsWith (s suf : String) : Bool :=
  suf.data.reverse.isPrefixOf s.data.reverse

/-- Embeds Python `str.strip()`: drop whitespace from both ends. -/
def pyStrip (s : String) : String :=
  String.mk (((s.data.dropWhile Char.isWhitespace).reverse.dropWhile
    Char.isWhitespace).reverse)

/-- Embeds Python `str.upper()` (ASCII range, which is all the code compares
against: the literal "UNLOAD"). -/
def pyUpper (s : String) : String :=
  String.mk (s.data.map Char.toUpper)

/-- Embeds Python `str.split("/")`: split a character sequence at every
slash, keeping empty segments, as `"a//b".split("/") == ["a", "", "b"]`. -/
def splitSlash : List Char → List (List Char)
  | [] => [[]]
  | c :: cs =>
    match splitSlash cs with
    | [] => [[]]
    | p :: ps => if c = '/' then [] :: p :: ps else (c :: p) :: ps

/-- Embeds Python `"/".join(parts)`. -/
def joinSlash : List (List Char) → List Char
  | [] => []
  | [p] => p
  | p :: q :: r => p ++ '/' :: joinSlash (q :: r)

/-- Boolean substring test (used only to state claims about error and log
messages): `strContainsB s t` holds when `t` occurs contiguously in `s`. -/
def strContainsB (s t : String) : Bool :=
  go t.data s.data
where
  /-- Checks the pattern as a prefix at every position of the text. -/
  go (pat : List Char) : List Char → Bool
    | [] => pat.isEmpty
    | c :: cs => pat.isPrefixOf (c :: cs) || go pat cs

/-- Truthiness of a Python string-or-None value (`None` and `""` are falsy). -/
def truthyOptStr (o : Option String) : Bool :=
  match o with
  | none => false
  | some s => !s.isEmpty

/-- Truthiness of a Python int-or-None value (`None` and `0` are falsy). -/
def truthyOptNat (o : Option Nat) : Bool :=
  match o with
  | none => false
  | some n => n != 0

/-- Rendering of a string-or-None inside a Python f-string: `None` prints as
the four characters `None`. -/
def pyStr (o : Option String) : String :=
  o.getD "None"

/-! ## Data model -/

/-- One record of `DataFrame.to_dict("records")`: a mapping from column name
to cell value. -/
def Record (α : Type) : Type := String → α

/-- Embeds Python exceptions raised by the module: `ProgrammingError`,
`OperationalError` (which wraps the originating exception's `args`),
`ImportError`, `DataError` (from `parse_output_location`) and `IndexError`
(list subscript on an empty list). -/
inductive PyErr where
  | programming (msg : String)
  | operational (args : List String)
  | importError (msg : String)
  | dataError (msg : String)
  | indexError (msg : String)
deriving DecidableEq

/-- The fields of an `AthenaPandasResultSet` instance that its methods read or
write. `α` is the cell-value type, `Meta` the type of one recovered schema
entry (the Python dicts produced by `to_column_info`).

* `state`, `outputLocation`, `query`, `description`, `metadata` come from the
  base class `AthenaResultSet` (`self.state`, `self.output_location`,
  `self.query`, `self.description`, `self._metadata`); `description` and
  `metadata` are `Option` because they may be `None`.
* `arraysize`, `unload`, `unloadLocation`, `engine`, `dataManifest` are set in
  `__init__` (lines 64-72).
* `df`, `iterrows`, `rownumber` are the materialized table (as its records),
  the `enumerate` iterator state (the items not yet yielded), and
  `self._rownumber`.
-/
structure AthenaPandasResultSet (α Meta : Type) where
  state : String
  outputLocation : Option String
  query : Option String
  description : Option (List (String × String))
  metadata : Option (List Meta)
  arraysize : Int
  unload : Bool
  unloadLocation : Option String
  engine : String
  dataManifest : List String
  df : List (Record α)
  iterrows : List (Nat × Record α)
  rownumber : Nat

variable {α Meta : Type}

/-! ## Cursor operations (lines 153-189, 328-337) -/

/-- Embeds `fetchone` (lines 153-163): take the next item of the `enumerate`
iterator; on `StopIteration` return `None` leaving the state unchanged,
otherwise set `self._rownumber = row[0] + 1` and build the tuple
`tuple([row[1][d[0]] for d in description])`, where `description` is
`self.description if self.description else []`. -/
def fetchone (rs : AthenaPandasResultSet α Meta) :
    Option (List α) × AthenaPandasResultSet α Meta :=
  match rs.iterrows with
  | [] => (none, rs)
  | row :: rest =>
    (some ((rs.description.getD []).map (fun d => row.2 d.1)),
     { rs with iterrows := rest, rownumber := row.1 + 1 })

/-- Truthiness of the value returned by `fetchone`: `None` and the empty
tuple are falsy, any non-empty tuple is truthy. This is the `if row:` test of
`fetchmany` and `fetchall`. -/
def rowTruthy (r : Option (List α)) : Bool :=
  match r with
  | none => false
  | some t => !t.isEmpty

/-- The `for _ in range(size)` loop body of `fetchmany` (lines 170-177):
call `fetchone` up to `n` times, appending each truthy row, breaking at the
first falsy one. -/
def fetchmanyLoop : AthenaPandasResultSet α Meta → Nat →
    List (List α) × AthenaPandasResultSet α Meta
  | rs, 0 => ([], rs)
  | rs, n + 1 =>
    let r := fetchone rs
    if rowTruthy r.1 then
      let rest := fetchmanyLoop r.2 n
      (r.1.getD [] :: rest.1, rest.2)
    else
      ([], r.2)

/-- Embeds `fetchmany` (lines 165-177). `if not size or size <= 0:` replaces
a `None`, zero or negative size by `self._arraysize`; `range` of a
non-positive count is empty, hence `Int.toNat`. -/
def fetchmany (rs : AthenaPandasResultSet α Meta) (size : Option Int) :
    List (List α) × AthenaPandasResultSet α Meta :=
  let sz : Int :=
    match size with
    | none => rs.arraysize
    | some v => if v ≤ 0 then rs.arraysize else v
  fetchmanyLoop rs sz.toNat

/-- Embeds `fetchall` (lines 179-189): `while True:` call `fetchone`, append
the row while truthy, break at the first falsy one. Each truthy step consumes
one iterator item, so the loop terminates. -/
def fetchall (rs : AthenaPandasResultSet α Meta) :
    List (List α) × AthenaPandasResultSet α Meta :=
  match h : rs.iterrows with
  | [] => ([], rs)
  | row :: rest =>
    let t := (rs.description.getD []).map (fun d => row.2 d.1)
    let rs' : AthenaPandasResultSet α Meta :=
      { rs with iterrows := rest, rownumber := row.1 + 1 }
    if t.isEmpty then ([], rs')
    else
      let r := fetchall rs'
      (t :: r.1, r.2)
termination_by rs.iterrows.length
decreasing_by simp [h]

/-- Embeds `as_pandas` (lines 328-329): return the one materialized table. -/
def as_pandas (rs : AthenaPandasResultSet α Meta) : List (Record α) :=
  rs.df

/-- Embeds `close` (lines 331-337): replace the table by an empty one, the
iterator by `enumerate([])` and the manifest by `[]`. The base-class
`super().close()` is outside `src/`; modelled from the spec, which says close
only releases resources — it touches none of the fields the fetch methods
read beyond what the three assignments here already clear. -/
def close (rs : AthenaPandasResultSet α Meta) : AthenaPandasResultSet α Meta :=
  { rs with df := [], iterrows := [], dataManifest := [] }

/-- The cursor initialization of `__init__` (line 80):
`self._iterrows = enumerate(self._df.to_dict("records"))` over a freshly
materialized table. The initial row number 0 comes from the base class
`AthenaResultSet.__init__`, which is outside `src/`; modelled from the spec:
`rownumber` equals the count of successful `fetchone` calls, hence 0 on a
fresh cursor. -/
def initCursor (rs : AthenaPandasResultSet α Meta) (df : List (Record α)) :
    AthenaPandasResultSet α Meta :=
  { rs with df := df, iterrows := df.enum, rownumber := 0 }

/-! ## Basic cursor lemmas -/

theorem fetchone_of_nil {rs : AthenaPandasResultSet α Meta}
    (h : rs.iterrows = []) : fetchone rs = (none, rs) := by
  simp [fetchone, h]

theorem fetchone_of_cons {rs : AthenaPandasResultSet α Meta} {i : Nat}
    {r : Record α} {rest : List (Nat × Record α)}
    (h : rs.iterrows = (i, r) :: rest) :
    fetchone rs =
      (some ((rs.description.getD []).map (fun d => r d.1)),
       { rs with iterrows := rest, rownumber := i + 1 }) := by
  simp [fetchone, h]

theorem fetchmanyLoop_of_nil {rs : AthenaPandasResultSet α Meta}
    (h : rs.iterrows = []) (n : Nat) : fetchmanyLoop rs n = ([], rs) := by
  cases n with
  | zero => rfl
  | succ n => simp [fetchmanyLoop, fetchone_of_nil h, rowTruthy]

theorem fetchmanyLoop_length_le (n : Nat) (rs : AthenaPandasResultSet α Meta) :
    (fetchmanyLoop rs n).1.length ≤ n := by
  induction n generalizing rs with
  | zero => simp [fetchmanyLoop]
  | succ n ih =>
    show (fetchmanyLoop rs (n + 1)).1.length ≤ n + 1
    rw [fetchmanyLoop]
    by_cases hr : rowTruthy (fetchone rs).1
    · simpa [hr] using ih (fetchone rs).2
    · simp [hr]

/-- C3: after `close()` is called on a result set (in any cursor state),
`fetchone` returns `None`, `fetchmany` and `fetchall` return the empty list,
`as_pandas` returns a zero-row table, `close` is idempotent, and no operation
after close raises (all operations here are total functions into plain
values, not `Except`). -/
theorem close_terminal (rs : AthenaPandasResultSet α Meta) :
    fetchone (close rs) = (none, close rs)
    ∧ (∀ s : Option Int, fetchmany (close rs) s = ([], close rs))
    ∧ fetchall (close rs) = ([], close rs)
    ∧ as_pandas (close rs) = []
    ∧ close (close rs) = close rs := by
  refine ⟨rfl, ?_, ?_, rfl, rfl⟩
  · intro s
    simp [fetchmany,
      fetchmanyLoop_of_nil (show (close rs).iterrows = [] from rfl)]
  · rw [fetchall]; rfl

/-! ## C1: rownumber counts successful fetchone calls -/

/-- Iterated application of `fetchone`, keeping only the state: the cursor
after `n` successive `fetchone` calls. -/
def fetchoneIter : AthenaPandasResultSet α Meta → Nat →
    AthenaPandasResultSet α Meta
  | rs, 0 => rs
  | rs, n + 1 => fetchoneIter (fetchone rs).2 n

theorem fetchoneIter_enumFrom (n : Nat) :
    ∀ (rs : AthenaPandasResultSet α Meta) (k : Nat) (l : List (Record α)),
      rs.iterrows = List.enumFrom k l → n ≤ l.length →
      (fetchoneIter rs n).iterrows = List.enumFrom (k + n) (l.drop n)
      ∧ (n = 0 ∨ (fetchoneIter rs n).rownumber = k + n) := by
  induction n with
  | zero =>
    intro rs k l h hn
    exact ⟨by simpa using h, Or.inl rfl⟩
  | succ n ih =>
    intro rs k l h hn
    cases l with
    | nil => simp at hn
    | cons x xs =>
      have hx : rs.iterrows = (k, x) :: List.enumFrom (k + 1) xs := by
        simpa [List.enumFrom] using h
      have hone : (fetchone rs).2 =
          { rs with iterrows := List.enumFrom (k + 1) xs, rownumber := k + 1 } := by
        simp [fetchone, hx]
      have hiter : fetchoneIter rs (n + 1) = fetchoneIter (fetchone rs).2 n := rfl
      have hlen : n ≤ xs.length := by simpa using hn
      have hrow : ((fetchone rs).2).iterrows = List.enumFrom (k + 1) xs := by
        rw [hone]
      obtain ⟨h1, h2⟩ := ih (fetchone rs).2 (k + 1) xs hrow hlen
      constructor
      · rw [hiter, h1]
        have : k + 1 + n = k + (n + 1) := by omega
        simp [this]
      · right
        rcases h2 with h2 | h2
        · subst h2
          simp [hiter, fetchoneIter, hone]
        · rw [hiter, h2]; omega

/-- C1: for every materialized result set, after `N` calls to `fetchone` that
each return a row, the `rownumber` property equals `N`; a `fetchone` call
that returns the `None` exhaustion sentinel leaves `rownumber` unchanged. -/
theorem rownumber_counts_successful_fetchone
    (rs : AthenaPandasResultSet α Meta) (df : List (Record α)) (N : Nat)
    (h : N ≤ df.length) :
    (fetchoneIter (initCursor rs df) N).rownumber = N
    ∧ (∀ i, i < N →
        ((fetchone (fetchoneIter (initCursor rs df) i)).1).isSome = true)
    ∧ (∀ rs' : AthenaPandasResultSet α Meta, (fetchone rs').1 = none →
        (fetchone rs').2.rownumber = rs'.rownumber) := by
  have hinit : (initCursor rs df).iterrows = List.enumFrom 0 df := by
    simp [initCursor, List.enum]
  refine ⟨?_, ?_, ?_⟩
  · obtain ⟨-, h2⟩ := fetchoneIter_enumFrom N (initCursor rs df) 0 df hinit h
    rcases h2 with h2 | h2
    · subst h2; simp [fetchoneIter, initCursor]
    · simpa using h2
  · intro i hi
    obtain ⟨h1, -⟩ :=
      fetchoneIter_enumFrom i (initCursor rs df) 0 df hinit (le_of_lt (lt_of_lt_of_le hi h))
    have hne : df.drop i ≠ [] := by
      intro hmt
      have := List.drop_eq_nil_iff.mp hmt
      omega
    cases hd : df.drop i with
    | nil => exact absurd hd hne
    | cons y ys =>
      have : (fetchoneIter (initCursor rs df) i).iterrows =
          (0 + i, y) :: List.enumFrom (0 + i + 1) ys := by
        rw [h1, hd]; simp [List.enumFrom]
      rw [fetchone_of_cons this]
      rfl
  · intro rs' hnone
    cases hit : rs'.iterrows with
    | nil => rw [fetchone_of_nil hit]
    | cons row rest =>
      obtain ⟨i, r⟩ := row
      rw [fetchone_of_cons hit] at hnone
      simp at hnone

/-! ## C9: fetchmany with None, zero or negative size -/

/-- C9: `fetchmany` called with size `None`, zero, or negative behaves as if
called with the configured `arraysize`: it returns up to `arraysize` rows. -/
theorem fetchmany_nonpositive_size (rs : AthenaPandasResultSet α Meta)
    (s : Option Int) (h : s = none ∨ ∃ v, s = some v ∧ v ≤ 0) :
    fetchmany rs s = fetchmany rs (some rs.arraysize)
    ∧ (fetchmany rs s).1.length ≤ rs.arraysize.toNat := by
  have hsz : fetchmany rs (some rs.arraysize) = fetchmanyLoop rs rs.arraysize.toNat := by
    by_cases ha : rs.arraysize ≤ 0 <;> simp [fetchmany, ha]
  have hl : fetchmany rs s = fetchmanyLoop rs rs.arraysize.toNat := by
    rcases h with h | ⟨v, hsv, hv⟩
    · subst h; rfl
    · subst hsv; simp [fetchmany, hv]
  rw [hl, hsz]
  exact ⟨rfl, fetchmanyLoop_length_le _ _⟩

/-! ## C10: empty column description -/

theorem fetchmanyLoop_empty_desc {rs : AthenaPandasResultSet α Meta}
    (h : rs.description.getD [] = []) (n : Nat) :
    (fetchmanyLoop rs n).1 = [] := by
  cases n with
  | zero => rfl
  | succ n =>
    cases hit : rs.iterrows with
    | nil => simp [fetchmanyLoop_of_nil hit]
    | cons row rest =>
      obtain ⟨i, r⟩ := row
      rw [fetchmanyLoop]
      rw [fetchone_of_cons hit]
      simp [rowTruthy, h]

theorem fetchall_empty_desc {rs : AthenaPandasResultSet α Meta}
    (h : rs.description.getD [] = []) :
    (fetchall rs).1 = [] := by
  rw [fetchall]
  cases hit : rs.iterrows with
  | nil => simp [hit]
  | cons row rest => simp [hit, h]

/-- C10: for every result set whose column description is empty (`None` or
the empty list), `fetchone` returns the empty tuple for each remaining row,
and `fetchmany` and `fetchall` return the empty list even when unconsumed
rows remain, because both stop at the first row whose tuple is falsy. -/
theorem empty_description_fetch (rs : AthenaPandasResultSet α Meta)
    (h : rs.description.getD [] = []) :
    (rs.iterrows ≠ [] → (fetchone rs).1 = some [])
    ∧ (∀ s : Option Int, (fetchmany rs s).1 = [])
    ∧ (fetchall rs).1 = [] := by
  refine ⟨?_, ?_, fetchall_empty_desc h⟩
  · intro hne
    cases hit : rs.iterrows with
    | nil => exact absurd hit hne
    | cons row rest =>
      obtain ⟨i, r⟩ := row
      rw [fetchone_of_cons hit]
      simp [h]
  · intro s
    exact fetchmanyLoop_empty_desc h _

/-! ## C2: draining with fetchmany equals fetchall -/

theorem fetchall_of_nil {rs : AthenaPandasResultSet α Meta}
    (h : rs.iterrows = []) : fetchall rs = ([], rs) := by
  rw [fetchall]
  split
  · rfl
  · next row rest hit => rw [h] at hit; exact absurd hit (by simp)

theorem fetchall_of_cons {rs : AthenaPandasResultSet α Meta} {i : Nat}
    {r : Record α} {rest : List (Nat × Record α)}
    (h : rs.iterrows = (i, r) :: rest) :
    fetchall rs =
      (if ((rs.description.getD []).map (fun d => r d.1)).isEmpty then
        ([], { rs with iterrows := rest, rownumber := i + 1 })
      else
        (((rs.description.getD []).map (fun d => r d.1)) ::
          (fetchall { rs with iterrows := rest, rownumber := i + 1 }).1,
         (fetchall { rs with iterrows := rest, rownumber := i + 1 }).2)) := by
  rw [fetchall]
  split
  · next hit => rw [h] at hit; exact absurd hit (by simp)
  · next row' rest' hit =>
    rw [h] at hit
    obtain ⟨h1, h2⟩ := List.cons.inj hit
    subst h2
    subst h1
    rfl

theorem fetchmanyLoop_description (n : Nat) (rs : AthenaPandasResultSet α Meta) :
    (fetchmanyLoop rs n).2.description = rs.description := by
  induction n generalizing rs with
  | zero => rfl
  | succ n ih =>
    rw [fetchmanyLoop]
    by_cases hr : rowTruthy (fetchone rs).1
    · have hd : ((fetchone rs).2).description = rs.description := by
        cases hit : rs.iterrows with
        | nil => rw [fetchone_of_nil hit]
        | cons row rest =>
          obtain ⟨i, r⟩ := row
          rw [fetchone_of_cons hit]
      simp only [hr, if_true]
      rw [ih (fetchone rs).2, hd]
    · have hd : ((fetchone rs).2).description = rs.description := by
        cases hit : rs.iterrows with
        | nil => rw [fetchone_of_nil hit]
        | cons row rest =>
          obtain ⟨i, r⟩ := row
          rw [fetchone_of_cons hit]
      simp only [hr, if_false]
      exact hd

theorem fetchmanyLoop_spec (n : Nat) :
    ∀ rs : AthenaPandasResultSet α Meta, rs.description.getD [] ≠ [] →
      (fetchmanyLoop rs n).1 =
        (rs.iterrows.take n).map
          (fun p => (rs.description.getD []).map (fun d => p.2 d.1))
      ∧ (fetchmanyLoop rs n).2.iterrows = rs.iterrows.drop n := by
  induction n with
  | zero =>
    intro rs hd
    exact ⟨by simp [fetchmanyLoop], by simp [fetchmanyLoop]⟩
  | succ n ih =>
    intro rs hd
    cases hit : rs.iterrows with
    | nil => simp [fetchmanyLoop_of_nil hit, hit]
    | cons row rest =>
      obtain ⟨i, r⟩ := row
      have hone := fetchone_of_cons hit
      have htup : rowTruthy (fetchone rs).1 = true := by
        rw [hone]
        simpa [rowTruthy, List.isEmpty_iff] using hd
      obtain ⟨ih1, ih2⟩ := ih (fetchone rs).2 (by rw [hone]; exact hd)
      rw [fetchmanyLoop]
      simp only [htup, if_true]
      constructor
      · rw [ih1, hone]
        simp [hit]
      · rw [ih2, hone]
        simp [hit]

theorem fetchmanyLoop_consumes (n : Nat) (rs : AthenaPandasResultSet α Meta) :
    (fetchmanyLoop rs n).2.iterrows.length ≤ rs.iterrows.length
    ∧ ((fetchmanyLoop rs n).1 ≠ [] →
        (fetchmanyLoop rs n).2.iterrows.length < rs.iterrows.length) := by
  induction n generalizing rs with
  | zero => exact ⟨le_refl _, by intro h; exact absurd rfl h⟩
  | succ n ih =>
    cases hit : rs.iterrows with
    | nil => simp [fetchmanyLoop_of_nil hit, hit]
    | cons row rest =>
      obtain ⟨i, r⟩ := row
      have hone := fetchone_of_cons hit
      have ihle2 : (fetchmanyLoop (fetchone rs).2 n).2.iterrows.length ≤
          rest.length := by
        calc (fetchmanyLoop (fetchone rs).2 n).2.iterrows.length
            ≤ (fetchone rs).2.iterrows.length := (ih (fetchone rs).2).1
          _ = rest.length := by rw [hone]
      rw [fetchmanyLoop]
      by_cases hr : rowTruthy (fetchone rs).1
      · simp only [hr, if_true]
        refine ⟨?_, fun _ => ?_⟩
        · have h2 : (fetchmanyLoop (fetchone rs).2 n).2.iterrows.length ≤
              rest.length + 1 := by omega
          exact h2
        · have h2 : (fetchmanyLoop (fetchone rs).2 n).2.iterrows.length <
              rest.length + 1 := by omega
          exact h2
      · rw [if_neg hr]
        refine ⟨?_, fun _ => ?_⟩
        · simp [hone]
        · simp [hone]

theorem fetchmany_consumes (rs : AthenaPandasResultSet α Meta) (k : Int)
    (h : (fetchmany rs (some k)).1 ≠ []) :
    (fetchmany rs (some k)).2.iterrows.length < rs.iterrows.length := by
  have : fetchmany rs (some k) =
      fetchmanyLoop rs (if k ≤ 0 then rs.arraysize else k).toNat := rfl
  rw [this] at h ⊢
  exact (fetchmanyLoop_consumes _ rs).2 h

/-- The repeated-`fetchmany` consumer of the claim: call `fetchmany(k)` on
the cursor, stop at the first empty batch, otherwise concatenate the batch
with the batches of the remaining cursor state. -/
def drainFetchmany (rs : AthenaPandasResultSet α Meta) (k : Int) :
    List (List α) :=
  if h : (fetchmany rs (some k)).1.isEmpty then []
  else (fetchmany rs (some k)).1 ++ drainFetchmany (fetchmany rs (some k)).2 k
termination_by rs.iterrows.length
decreasing_by
  exact fetchmany_consumes rs k (by simpa using h)

theorem fetchall_spec :
    ∀ (n : Nat) (rs : AthenaPandasResultSet α Meta), rs.iterrows.length = n →
      rs.description.getD [] ≠ [] →
      (fetchall rs).1 =
        rs.iterrows.map
          (fun p => (rs.description.getD []).map (fun d => p.2 d.1)) := by
  intro n
  induction n using Nat.strong_induction_on with
  | _ n ih =>
    intro rs hn hd
    cases hit : rs.iterrows with
    | nil => simp [fetchall_of_nil hit, hit]
    | cons row rest =>
      obtain ⟨i, r⟩ := row
      rw [fetchall_of_cons hit]
      have ht : ¬((rs.description.getD []).map (fun d => r d.1)).isEmpty = true := by
        simpa [List.isEmpty_iff] using hd
      rw [if_neg ht]
      have hlt : rest.length < n := by
        rw [← hn, hit]; simp
      have hrest := ih rest.length hlt
        { rs with iterrows := rest, rownumber := i + 1 } rfl hd
      simp only [List.map_cons]
      simp [hrest]

theorem drainFetchmany_spec (k : Int) (hk : 0 < k) :
    ∀ (n : Nat) (rs : AthenaPandasResultSet α Meta), rs.iterrows.length = n →
      drainFetchmany rs k =
        if rs.description.getD [] = [] then []
        else
          rs.iterrows.map
            (fun p => (rs.description.getD []).map (fun d => p.2 d.1)) := by
  intro n
  induction n using Nat.strong_induction_on with
  | _ n ih =>
    intro rs hn
    have hfm : fetchmany rs (some k) = fetchmanyLoop rs k.toNat := by
      simp [fetchmany, not_le.mpr hk]
    by_cases hd : rs.description.getD [] = []
    · rw [if_pos hd, drainFetchmany]
      have hempty : (fetchmany rs (some k)).1 = [] := by
        rw [hfm]; exact fetchmanyLoop_empty_desc hd _
      simp [hempty]
    · rw [if_neg hd]
      obtain ⟨hspec1, hspec2⟩ := fetchmanyLoop_spec k.toNat rs hd
      cases hit : rs.iterrows with
      | nil =>
        have hempty : (fetchmany rs (some k)).1 = [] := by
          rw [hfm, hspec1, hit]; simp
        rw [drainFetchmany]
        simp [hempty, hit]
      | cons row rest =>
        have hkpos : 1 ≤ k.toNat := by omega
        have hne : (fetchmany rs (some k)).1 ≠ [] := by
          rw [hfm, hspec1, hit]
          cases hk2 : k.toNat with
          | zero => omega
          | succ m => simp
        have hie : (fetchmany rs (some k)).1.isEmpty = false := by
          simpa [List.isEmpty_iff] using hne
        rw [drainFetchmany]
        simp only [hie, Bool.false_eq_true, dite_false]
        have hdesc2 : (fetchmany rs (some k)).2.description = rs.description := by
          rw [hfm]; exact fetchmanyLoop_description _ _
        have hlt : (fetchmany rs (some k)).2.iterrows.length < n := by
          rw [← hn]; exact fetchmany_consumes rs k hne
        rw [ih _ hlt (fetchmany rs (some k)).2 rfl]
        have hd2 : ¬((fetchmany rs (some k)).2.description.getD [] = []) := by
          rw [hdesc2]; exact hd
        rw [if_neg hd2]
        simp only [hdesc2]
        rw [hfm, hspec1]
        rw [hspec2, ← List.map_append, List.take_append_drop, hit]

/-- C2: for every materialized table and every `k > 0`, calling `fetchmany(k)`
repeatedly until it returns an empty list yields, concatenated in order,
exactly the same sequence of row tuples as one `fetchall()` call made on a
fresh cursor over the same table (both sides start from the same cursor
state). -/
theorem fetchmany_drain_eq_fetchall (rs : AthenaPandasResultSet α Meta)
    (k : Int) (hk : 0 < k) :
    drainFetchmany rs k = (fetchall rs).1 := by
  by_cases hd : rs.description.getD [] = []
  · rw [drainFetchmany_spec k hk rs.iterrows.length rs rfl, if_pos hd,
      fetchall_empty_desc hd]
  · rw [drainFetchmany_spec k hk rs.iterrows.length rs rfl, if_neg hd,
      fetchall_spec rs.iterrows.length rs rfl hd]

/-! ## Concrete sample states for the witness theorems -/

/-- A concrete three-row result set over natural-number cells (records are
constant functions), used by the witness theorems. -/
def sampleRS : AthenaPandasResultSet Nat Unit :=
  { state := "SUCCEEDED"
    outputLocation := some "s3://bkt/res/qid.csv"
    query := some "SELECT 1"
    description := some [("a", "integer"), ("b", "varchar")]
    metadata := none
    arraysize := 1
    unload := false
    unloadLocation := none
    engine := "auto"
    dataManifest := []
    df := [fun _ => 10, fun _ => 20, fun _ => 30]
    iterrows := [(0, fun _ => 10), (1, fun _ => 20), (2, fun _ => 30)]
    rownumber := 0 }

/-- Witness for C1 at the concrete table of `sampleRS`, `N = 2`. -/
theorem rownumber_counts_successful_fetchone_witness :
    2 ≤ sampleRS.df.length ∧
    ((fetchoneIter (initCursor sampleRS sampleRS.df) 2).rownumber = 2
     ∧ (∀ i, i < 2 →
         ((fetchone (fetchoneIter (initCursor sampleRS sampleRS.df) i)).1).isSome
           = true)
     ∧ (∀ rs' : AthenaPandasResultSet Nat Unit, (fetchone rs').1 = none →
         (fetchone rs').2.rownumber = rs'.rownumber)) :=
  ⟨by decide,
   rownumber_counts_successful_fetchone sampleRS sampleRS.df 2 (by decide)⟩

/-- Witness for C2 at the concrete cursor `sampleRS`, `k = 2`. -/
theorem fetchmany_drain_eq_fetchall_witness :
    (0 : Int) < 2 ∧ drainFetchmany sampleRS 2 = (fetchall sampleRS).1 :=
  ⟨by decide, fetchmany_drain_eq_fetchall sampleRS 2 (by decide)⟩

/-- Witness for C9 at the concrete cursor `sampleRS`, size `-3`. -/
theorem fetchmany_nonpositive_size_witness :
    (some (-3 : Int) = none ∨ ∃ v, some (-3 : Int) = some v ∧ v ≤ 0) ∧
    (fetchmany sampleRS (some (-3)) = fetchmany sampleRS (some sampleRS.arraysize)
     ∧ (fetchmany sampleRS (some (-3))).1.length ≤ sampleRS.arraysize.toNat) :=
  ⟨Or.inr ⟨-3, rfl, by decide⟩,
   fetchmany_nonpositive_size sampleRS (some (-3)) (Or.inr ⟨-3, rfl, by decide⟩)⟩

/-- Witness for C10: `sampleRS` with its column description removed but two
rows still unconsumed. -/
theorem empty_description_fetch_witness :
    ({ sampleRS with description := none }).description.getD [] = [] ∧
    ((({ sampleRS with description := none })).iterrows ≠ [] →
      (fetchone { sampleRS with description := none }).1 = some [])
    ∧ (∀ s : Option Int,
        (fetchmany { sampleRS with description := none } s).1 = [])
    ∧ (fetchall { sampleRS with description := none }).1 = [] :=
  ⟨rfl,
   empty_description_fetch { sampleRS with description := none } rfl⟩

/-! ## Materializer environment (external collaborators) -/

/-- The external collaborators the materializer calls. Each field models one
I/O-performing call as a pure function returned by the environment:

* `importModule m` — `importlib.import_module(m)` in `__get_engine`: either
  the imported module's `__name__` or the `ImportError` message `str(e)`;
* `contentLength` — `self._get_content_length()` (base class; a content
  length or `None`);
* `readDataManifest` — `self._read_data_manifest()` (base class; the list of
  UNLOAD part URIs);
* `readCsv path sep header names` — `pd.read_csv(...)` with the
  format-relevant arguments; either the parsed records or the raised
  exception's `args`;
* `truncTimes cols df` — the pandas `.loc`/`.dt.time` rewrite inside
  `_trunc_date` applied to the named time columns;
* `readParquetFiles path eng` — `pd.read_parquet(path, engine=eng, ...)`;
* `readSchemaPyarrow path` / `readSchemaFastparquet path` — the
  `ParquetDataset`/`ParquetFile` schema read plus `to_column_info`. -/
structure PandasEnv (α Meta : Type) where
  importModule : String → Except String String
  contentLength : Option Nat
  readDataManifest : List String
  readCsv : String → String → Option Nat → Option (List String) →
    Except (List String) (List (Record α))
  truncTimes : List String → List (Record α) → List (Record α)
  readParquetFiles : String → String → Except (List String) (List (Record α))
  readSchemaPyarrow : String → Except (List String) (List Meta)
  readSchemaFastparquet : String → Except (List String) (List Meta)

/-! ## Engine selection (lines 82-100) -/

/-- The `for engine in ["pyarrow", "fastparquet"]:` loop of `__get_engine`:
try each import in order, returning the first module name that imports;
otherwise accumulate `"\n - " + str(e)` into `error_msgs` and finally raise
the `ImportError` whose text interpolates the accumulated messages. -/
def engineLoop (importModule : String → Except String String) :
    List String → String → Except PyErr String
  | [], errorMsgs =>
    .error (.importError
      ("Unable to find a usable engine; tried using: 'pyarrow', 'fastparquet'.\n"
        ++ "A suitable version of pyarrow or fastparquet is required for parquet support.\n"
        ++ "Trying to import the above resulted in these errors:"
        ++ errorMsgs))
  | eng :: rest, errorMsgs =>
    match importModule eng with
    | .ok name => .ok name
    | .error e => engineLoop importModule rest (errorMsgs ++ "\n - " ++ e)

/-- Embeds `__get_engine` (lines 82-100): for the `"auto"` preference probe
`pyarrow` then `fastparquet`; for an explicit preference return it as
given. -/
def get_engine (rs : AthenaPandasResultSet α Meta) (env : PandasEnv α Meta) :
    Except PyErr String :=
  if rs.engine = "auto" then
    engineLoop env.importModule ["pyarrow", "fastparquet"] ""
  else
    .ok rs.engine

/-! ## Unload detection and date truncation (lines 113-119, 146-151) -/

/-- Embeds the `is_unload` property (lines 113-119):
`self._unload and self.query and
self.query.strip().upper().startswith("UNLOAD")`. -/
def is_unload (rs : AthenaPandasResultSet α Meta) : Bool :=
  rs.unload && truthyOptStr rs.query
    && pyStartsWith (pyUpper (pyStrip (rs.query.getD ""))) "UNLOAD"

/-- Embeds `_trunc_date` (lines 146-151): collect the names of `time` /
`time with time zone` columns; if any, apply the time-of-day truncation to
those columns of the table. -/
def trunc_date (rs : AthenaPandasResultSet α Meta) (env : PandasEnv α Meta)
    (df : List (Record α)) : List (Record α) :=
  let description := rs.description.getD []
  let times := (description.filter
    (fun d => d.2 = "time" || d.2 = "time with time zone")).map (fun d => d.1)
  if times.isEmpty then df else env.truncTimes times df

/-! ## Delimited-text materializer (lines 191-237) -/

/-- The `try: pd.read_csv(...) except` block of `_read_csv` (lines 210-237):
on success apply `_trunc_date`; on failure log
`f"Failed to read {self.output_location}."` and raise
`OperationalError(*e.args)`. -/
def readCsvCall (rs : AthenaPandasResultSet α Meta) (env : PandasEnv α Meta)
    (ol sep : String) (header : Option Nat) (names : Option (List String)) :
    Except PyErr (List (Record α)) × List String :=
  match env.readCsv ol sep header names with
  | .ok df => (.ok (trunc_date rs env df), [])
  | .error args =>
    (.error (.operational args), ["Failed to read " ++ ol ++ "."])

/-- Embeds `_read_csv` (lines 191-237). Raise `ProgrammingError` when the
output location is `None` or empty; return an empty table when its suffix is
neither `.csv` nor `.txt`; pick tab/no-header/description-names for `.txt`
and comma/header-row for `.csv` when the content length is truthy, else
return an empty table; then perform the guarded read. The second component
is the list of log messages emitted. -/
def read_csv (rs : AthenaPandasResultSet α Meta) (env : PandasEnv α Meta) :
    Except PyErr (List (Record α)) × List String :=
  if truthyOptStr rs.outputLocation = false then
    (.error (.programming "OutputLocation is none or empty."), [])
  else
    let ol := rs.outputLocation.getD ""
    if !(pyEndsWith ol ".csv" || pyEndsWith ol ".txt") then
      (.ok [], [])
    else if truthyOptNat env.contentLength && pyEndsWith ol ".txt" then
      readCsvCall rs env ol "\t" none
        (some ((rs.description.getD []).map (fun d => d.1)))
    else if truthyOptNat env.contentLength && pyEndsWith ol ".csv" then
      readCsvCall rs env ol "," (some 0) none
    else
      (.ok [], [])

/-! ## Columnar manifest materializer (lines 239-279) -/

/-- Embeds the derivation
`"/".join(self._data_manifest[0].split("/")[:-1]) + "/"` (lines 246-248). -/
def deriveUnloadLocation (s : String) : String :=
  String.mk (joinSlash ((splitSlash s.data).dropLast)) ++ "/"

/-- The `try: pd.read_parquet(...) except` block of `_read_parquet` (lines
263-279). Note the source passes `engine=self._engine` — the raw constructor
preference, not the resolved engine parameter — and on failure logs
`f"Failed to read {self.output_location}."` (the output location, not the
unload location it actually read). -/
def readParquetCall (rs : AthenaPandasResultSet α Meta)
    (env : PandasEnv α Meta) (target : String) :
    Except PyErr (List (Record α)) × AthenaPandasResultSet α Meta × List String :=
  match env.readParquetFiles target rs.engine with
  | .ok df => (.ok df, rs, [])
  | .error args =>
    (.error (.operational args), rs,
     ["Failed to read " ++ pyStr rs.outputLocation ++ "."])

/-- Embeds `_read_parquet` (lines 239-279): refresh `self._data_manifest`;
empty manifest means an empty table; derive `self._unload_location` from the
manifest's first entry when unset; dispatch on the resolved engine (pyarrow
reads the location itself, fastparquet a `*` glob under it, anything else is
a `ProgrammingError`); then perform the guarded read. Returns the result,
the updated object state and the emitted log messages. -/
def read_parquet (rs : AthenaPandasResultSet α Meta) (env : PandasEnv α Meta)
    (engine : String) :
    Except PyErr (List (Record α)) × AthenaPandasResultSet α Meta × List String :=
  let rs1 : AthenaPandasResultSet α Meta :=
    { rs with dataManifest := env.readDataManifest }
  if rs1.dataManifest.isEmpty then
    (.ok [], rs1, [])
  else
    let rs2 : AthenaPandasResultSet α Meta :=
      if truthyOptStr rs1.unloadLocation = false then
        { rs1 with
          unloadLocation := some (deriveUnloadLocation (rs1.dataManifest.headD "")) }
      else rs1
    if engine = "pyarrow" then
      readParquetCall rs2 env (rs2.unloadLocation.getD "")
    else if engine = "fastparquet" then
      readParquetCall rs2 env ((rs2.unloadLocation.getD "") ++ "*")
    else
      (.error (.programming "Engine must be one of `pyarrow`, `fastparquet`."),
       rs2, [])

/-! ## Columnar schema recovery (lines 281-314) -/

/-- Modelled from the spec: `parse_output_location` lives in
`pyathena/util.py`, which is not under `src/`. It matches an
`s3://bucket/key` URI against a bucket/key pattern, returning the pair, and
raises a `DataError` on any other shape. -/
def parse_output_location (s : String) : Except PyErr (String × String) :=
  if pyStartsWith s "s3://" then
    let rest := s.data.drop 5
    let bucket := rest.takeWhile (fun c => c ≠ '/')
    let key := (rest.dropWhile (fun c => c ≠ '/')).drop 1
    if bucket ≠ [] ∧ key ≠ [] then
      .ok (String.mk bucket, String.mk key)
    else
      .error (.dataError "Unknown `output_location` format.")
  else
    .error (.dataError "Unknown `output_location` format.")

/-- Embeds `_read_parquet_schema` (lines 281-314): for `pyarrow` require a
truthy unload location, parse it into bucket/key and read the dataset schema
at `f"{bucket}/{key}"`; for `fastparquet` refresh the manifest when empty and
read the first entry's schema (an empty manifest would raise `IndexError` at
the subscript); any other engine is a `ProgrammingError`. Schema-read
failures log `f"Failed to read schema {bucket}/{key}."` and raise
`OperationalError(*e.args)`. -/
def read_parquet_schema (rs : AthenaPandasResultSet α Meta)
    (env : PandasEnv α Meta) (engine : String) :
    Except PyErr (List Meta) × AthenaPandasResultSet α Meta × List String :=
  if engine = "pyarrow" then
    if truthyOptStr rs.unloadLocation = false then
      (.error (.programming "UnloadLocation is none or empty."), rs, [])
    else
      match parse_output_location (rs.unloadLocation.getD "") with
      | .error e => (.error e, rs, [])
      | .ok (bucket, key) =>
        match env.readSchemaPyarrow (bucket ++ "/" ++ key) with
        | .ok info => (.ok info, rs, [])
        | .error args =>
          (.error (.operational args), rs,
           ["Failed to read schema " ++ bucket ++ "/" ++ key ++ "."])
  else if engine = "fastparquet" then
    let rs1 : AthenaPandasResultSet α Meta :=
      if rs.dataManifest.isEmpty then
        { rs with dataManifest := env.readDataManifest }
      else rs
    match rs1.dataManifest with
    | [] => (.error (.indexError "list index out of range"), rs1, [])
    | m0 :: _ =>
      match parse_output_location m0 with
      | .error e => (.error e, rs1, [])
      | .ok (bucket, key) =>
        match env.readSchemaFastparquet (bucket ++ "/" ++ key) with
        | .ok info => (.ok info, rs1, [])
        | .error args =>
          (.error (.operational args), rs1,
           ["Failed to read schema " ++ bucket ++ "/" ++ key ++ "."])
  else
    (.error (.programming "Engine must be one of `pyarrow`, `fastparquet`."),
     rs, [])

/-- Embeds `_as_pandas` (lines 316-326): on the UNLOAD path resolve the
engine, read the columnar fan-out, and set `self._metadata` either to the
explicit empty tuple (empty table) or to the recovered schema; otherwise read
the delimited text file. Besides the result, the updated state and the log,
the final component records whether `_read_parquet_schema` was invoked. -/
def asPandasMat (rs : AthenaPandasResultSet α Meta) (env : PandasEnv α Meta) :
    Except PyErr (List (Record α)) × AthenaPandasResultSet α Meta
      × List String × Bool :=
  if is_unload rs then
    match get_engine rs env with
    | .error e => (.error e, rs, [], false)
    | .ok engine =>
      match read_parquet rs env engine with
      | (.error e, rs1, log) => (.error e, rs1, log, false)
      | (.ok df, rs1, log) =>
        if df.isEmpty then
          (.ok df, { rs1 with metadata := some [] }, log, false)
        else
          match read_parquet_schema rs1 env engine with
          | (.error e, rs2, log2) => (.error e, rs2, log ++ log2, true)
          | (.ok info, rs2, log2) =>
            (.ok df, { rs2 with metadata := some info }, log ++ log2, true)
  else
    match read_csv rs env with
    | (.error e, log) => (.error e, rs, log, false)
    | (.ok df, log) => (.ok df, rs, log, false)

/-! ## String lemmas -/

theorem stringDataInj {a b : String} (h : a.data = b.data) : a = b := by
  cases a
  exact congrArg String.mk h

theorem strContainsB_go_self_append (pat suf : List Char) :
    strContainsB.go pat (pat ++ suf) = true := by
  cases pat with
  | nil => cases suf <;> simp [strContainsB.go]
  | cons p ps =>
    simp [strContainsB.go, List.isPrefixOf_iff_prefix, List.prefix_append]

theorem strContainsB_go_of_append_left (pat : List Char) :
    ∀ pre l : List Char, strContainsB.go pat l = true →
      strContainsB.go pat (pre ++ l) = true := by
  intro pre
  induction pre with
  | nil => intro l h; exact h
  | cons c cs ih =>
    intro l h
    rw [List.cons_append, strContainsB.go]
    rw [ih l h]
    simp

theorem strContainsB_go_of_append_right (pat : List Char) :
    ∀ l suf : List Char, strContainsB.go pat l = true →
      strContainsB.go pat (l ++ suf) = true := by
  intro l
  induction l with
  | nil =>
    intro suf h
    rw [strContainsB.go] at h
    have : pat = [] := by simpa using h
    subst this
    simpa using strContainsB_go_self_append [] suf
  | cons c cs ih =>
    intro suf h
    rw [strContainsB.go] at h
    rw [List.cons_append, strContainsB.go]
    rcases Bool.or_eq_true_iff.mp h with h1 | h1
    · have : pat <+: c :: cs := List.isPrefixOf_iff_prefix.mp h1
      have : pat <+: (c :: cs) ++ suf := this.trans (List.prefix_append _ _)
      rw [List.cons_append] at this
      rw [List.isPrefixOf_iff_prefix.mpr this]
      simp
    · rw [ih suf h1]
      simp

theorem strContainsB_self (t : String) : strContainsB t t = true := by
  rw [strContainsB]
  have := strContainsB_go_self_append t.data []
  simpa using this

theorem strContainsB_append_left (a b t : String)
    (h : strContainsB b t = true) : strContainsB (a ++ b) t = true := by
  rw [strContainsB] at h ⊢
  rw [String.data_append]
  exact strContainsB_go_of_append_left _ _ _ h

theorem strContainsB_append_right (a b t : String)
    (h : strContainsB a t = true) : strContainsB (a ++ b) t = true := by
  rw [strContainsB] at h ⊢
  rw [String.data_append]
  exact strContainsB_go_of_append_right _ _ _ h

/-! ## Split/join refinement: the derived root is the parent directory -/

/-- Specification-side form of the derived unload root: the parent directory
of a path together with its trailing separator, i.e. everything up to and
including the last slash of the path. -/
def parentDirSep (s : String) : String :=
  String.mk ((s.data.reverse.dropWhile (fun c => c ≠ '/')).reverse)

theorem splitSlash_ne_nil (l : List Char) : splitSlash l ≠ [] := by
  cases l with
  | nil => simp [splitSlash]
  | cons c cs =>
    rw [splitSlash]
    cases h : splitSlash cs with
    | nil => simp
    | cons p ps => by_cases hc : c = '/' <;> simp [hc]

theorem splitSlash_no_slash : ∀ l : List Char, '/' ∉ l → splitSlash l = [l] := by
  intro l
  induction l with
  | nil => intro _; rfl
  | cons c cs ih =>
    intro h
    have hc : c ≠ '/' := fun hc => h (by simp [hc])
    have hcs : '/' ∉ cs := fun hm => h (List.mem_cons_of_mem _ hm)
    rw [splitSlash, ih hcs]
    simp [hc]

theorem splitSlash_with_slash : ∀ l : List Char, '/' ∈ l →
    ∃ p ps, splitSlash l = p :: ps ∧ ps ≠ [] := by
  intro l
  induction l with
  | nil => intro h; simp at h
  | cons c cs ih =>
    intro h
    by_cases hc : c = '/'
    · subst hc
      cases hsp : splitSlash cs with
      | nil => exact absurd hsp (splitSlash_ne_nil cs)
      | cons q qs =>
        refine ⟨[], q :: qs, ?_, by simp⟩
        rw [splitSlash, hsp]
        simp
    · have hcs : '/' ∈ cs := by
        rcases List.mem_cons.mp h with h1 | h1
        · exact absurd h1.symm hc
        · exact h1
      obtain ⟨p, ps, hsp, hps⟩ := ih hcs
      refine ⟨c :: p, ps, ?_, hps⟩
      rw [splitSlash, hsp]
      simp [hc]

theorem splitSlash_cons_slash (cs : List Char) {q : List Char}
    {qs : List (List Char)} (hsp : splitSlash cs = q :: qs) :
    splitSlash ('/' :: cs) = [] :: q :: qs := by
  rw [splitSlash, hsp]
  simp

theorem splitSlash_cons_ne (c : Char) (hc : c ≠ '/') (cs : List Char)
    {q : List Char} {qs : List (List Char)} (hsp : splitSlash cs = q :: qs) :
    splitSlash (c :: cs) = (c :: q) :: qs := by
  rw [splitSlash, hsp]
  simp [hc]

theorem joinSlash_cons_of_ne_nil (p : List Char) {X : List (List Char)}
    (h : X ≠ []) : joinSlash (p :: X) = p ++ '/' :: joinSlash X := by
  cases X with
  | nil => exact absurd rfl h
  | cons q r => rfl

theorem joinSlash_cons_cons (c : Char) (p : List Char)
    (Y : List (List Char)) :
    joinSlash ((c :: p) :: Y) = c :: joinSlash (p :: Y) := by
  cases Y with
  | nil => rfl
  | cons y ys => rfl

theorem dropLast_cons_cons (a b : List Char) (l : List (List Char)) :
    (a :: b :: l).dropLast = a :: (b :: l).dropLast := rfl

theorem dropWhile_append_of_ne_nil {p : Char → Bool} :
    ∀ l₁ l₂ : List Char, l₁.dropWhile p ≠ [] →
      (l₁ ++ l₂).dropWhile p = l₁.dropWhile p ++ l₂ := by
  intro l₁ l₂
  induction l₁ with
  | nil => intro h; exact absurd rfl h
  | cons c cs ih =>
    intro h
    by_cases hp : p c
    · rw [List.dropWhile_cons, if_pos hp] at h
      rw [List.cons_append, List.dropWhile_cons, if_pos hp,
        List.dropWhile_cons, if_pos hp]
      exact ih h
    · rw [List.cons_append, List.dropWhile_cons, if_neg hp,
        List.dropWhile_cons, if_neg hp, List.cons_append]

theorem dropWhile_append_of_forall {p : Char → Bool} :
    ∀ l₁ l₂ : List Char, (∀ x ∈ l₁, p x = true) →
      (l₁ ++ l₂).dropWhile p = l₂.dropWhile p := by
  intro l₁ l₂
  induction l₁ with
  | nil => intro _; rfl
  | cons c cs ih =>
    intro h
    rw [List.cons_append, List.dropWhile_cons, if_pos (h c (by simp))]
    exact ih (fun x hx => h x (List.mem_cons_of_mem _ hx))

theorem dropWhile_ne_nil_of_mem {p : Char → Bool} {l : List Char} {x : Char}
    (hx : x ∈ l) (hpx : p x = false) : l.dropWhile p ≠ [] := by
  intro h
  have := List.dropWhile_eq_nil_iff.mp h x hx
  rw [hpx] at this
  exact Bool.false_ne_true this

theorem joinSlash_splitSlash_dropLast :
    ∀ l : List Char, '/' ∈ l →
      joinSlash ((splitSlash l).dropLast) ++ ['/'] =
        (l.reverse.dropWhile (fun c => c ≠ '/')).reverse := by
  intro l
  induction l with
  | nil => intro h; simp at h
  | cons c cs ih =>
    intro h
    by_cases hcs : '/' ∈ cs
    · have hd : cs.reverse.dropWhile (fun x => x ≠ '/') ≠ [] :=
        dropWhile_ne_nil_of_mem (x := '/') (by simpa using hcs) (by simp)
      have hr : ((c :: cs).reverse.dropWhile (fun x => x ≠ '/')).reverse =
          c :: ((cs.reverse.dropWhile (fun x => x ≠ '/')).reverse) := by
        rw [List.reverse_cons, dropWhile_append_of_ne_nil _ _ hd]
        simp
      rw [hr, ← ih hcs]
      by_cases hc : c = '/'
      · subst hc
        obtain ⟨q, qs, hsp, hqs⟩ := splitSlash_with_slash cs hcs
        rw [splitSlash_cons_slash cs hsp, hsp]
        rw [dropLast_cons_cons]
        have hdl : (q :: qs).dropLast ≠ [] := by
          cases qs with
          | nil => exact absurd rfl hqs
          | cons q2 qs2 => simp
        rw [joinSlash_cons_of_ne_nil [] hdl]
        simp
      · obtain ⟨p, ps, hsp, hps⟩ := splitSlash_with_slash cs hcs
        rw [splitSlash_cons_ne c hc cs hsp, hsp]
        cases ps with
        | nil => exact absurd rfl hps
        | cons p2 ps2 =>
          rw [dropLast_cons_cons, joinSlash_cons_cons, dropLast_cons_cons]
          simp
    · have hc : c = '/' := by
        rcases List.mem_cons.mp h with h1 | h1
        · exact h1.symm
        · exact absurd h1 hcs
      subst hc
      rw [splitSlash_cons_slash cs (splitSlash_no_slash cs hcs)]
      have hlhs : joinSlash (([] : List Char) :: [cs]).dropLast ++ ['/'] =
          ['/'] := by
        rfl
      rw [hlhs]
      rw [List.reverse_cons]
      rw [dropWhile_append_of_forall cs.reverse ['/']
        (fun x hx => by
          simp only [decide_eq_true_eq]
          intro hxeq
          exact hcs (by simpa [hxeq] using List.mem_reverse.mp hx))]
      rfl

theorem deriveUnloadLocation_eq_parentDirSep (s : String)
    (h : '/' ∈ s.data) : deriveUnloadLocation s = parentDirSep s := by
  apply stringDataInj
  rw [deriveUnloadLocation, parentDirSep, String.data_append]
  have hmain := joinSlash_splitSlash_dropLast s.data h
  simpa using hmain

/-! ## Materializer lemmas -/

theorem readParquetCall_state (rs : AthenaPandasResultSet α Meta)
    (env : PandasEnv α Meta) (target : String) :
    (readParquetCall rs env target).2.1 = rs := by
  rw [readParquetCall]
  cases env.readParquetFiles target rs.engine <;> rfl

theorem readParquetCall_failure (rs : AthenaPandasResultSet α Meta)
    (env : PandasEnv α Meta) (target : String) (args : List String)
    (h : env.readParquetFiles target rs.engine = .error args) :
    readParquetCall rs env target =
      (.error (.operational args), rs,
       ["Failed to read " ++ pyStr rs.outputLocation ++ "."]) := by
  rw [readParquetCall, h]

theorem readCsvCall_not_programming (rs : AthenaPandasResultSet α Meta)
    (env : PandasEnv α Meta) (ol sep : String) (header : Option Nat)
    (names : Option (List String)) (m : String) :
    (readCsvCall rs env ol sep header names).1 ≠ .error (.programming m) := by
  rw [readCsvCall]
  cases env.readCsv ol sep header names <;> simp

/-! ## C7: the delimited-text materializer's error conditions -/

theorem read_csv_not_programming {rs : AthenaPandasResultSet α Meta}
    {env : PandasEnv α Meta}
    (ht : truthyOptStr rs.outputLocation = true) (m : String) :
    (read_csv rs env).1 ≠ .error (.programming m) := by
  rw [read_csv]
  rw [if_neg (by simp [ht])]
  dsimp only
  split
  · simp
  · split
    · exact readCsvCall_not_programming _ _ _ _ _ _ _
    · split
      · exact readCsvCall_not_programming _ _ _ _ _ _ _
      · simp

/-- C7: the delimited-text materializer raises a `ProgrammingError` if and
only if the output location is empty or unset; when the output location is
set but its suffix is neither `.csv` nor `.txt`, it returns an empty table
without raising (and logs nothing). -/
theorem read_csv_programming_iff (rs : AthenaPandasResultSet α Meta)
    (env : PandasEnv α Meta) :
    ((∃ m, (read_csv rs env).1 = .error (.programming m))
        ↔ truthyOptStr rs.outputLocation = false)
    ∧ (truthyOptStr rs.outputLocation = true →
        pyEndsWith (rs.outputLocation.getD "") ".csv" = false →
        pyEndsWith (rs.outputLocation.getD "") ".txt" = false →
        read_csv rs env = (.ok [], [])) := by
  refine ⟨⟨?_, ?_⟩, ?_⟩
  · intro hex
    cases ht : truthyOptStr rs.outputLocation with
    | false => rfl
    | true =>
      obtain ⟨m, hm⟩ := hex
      exact absurd hm (read_csv_not_programming ht m)
  · intro ht
    refine ⟨"OutputLocation is none or empty.", ?_⟩
    rw [read_csv, if_pos ht]
  · intro ht hcsv htxt
    rw [read_csv]
    rw [if_neg (by simp [ht])]
    rw [if_pos (by simp [hcsv, htxt])]

/-! ## C6: engine resolution for the auto preference -/

/-- C6: for engine preference `"auto"`, resolution attempts to import
`pyarrow` first, then `fastparquet`, and returns the name of the first that
imports successfully; if neither imports, it fails with an `ImportError`
whose message contains both engine names and both underlying import failure
messages. -/
theorem get_engine_auto (rs : AthenaPandasResultSet α Meta)
    (env : PandasEnv α Meta) (ha : rs.engine = "auto") :
    (∀ n, env.importModule "pyarrow" = .ok n → get_engine rs env = .ok n)
    ∧ (∀ e1 n, env.importModule "pyarrow" = .error e1 →
        env.importModule "fastparquet" = .ok n → get_engine rs env = .ok n)
    ∧ (∀ e1 e2, env.importModule "pyarrow" = .error e1 →
        env.importModule "fastparquet" = .error e2 →
        ∃ msg, get_engine rs env = .error (.importError msg)
          ∧ strContainsB msg "pyarrow" = true
          ∧ strContainsB msg "fastparquet" = true
          ∧ strContainsB msg e1 = true
          ∧ strContainsB msg e2 = true) := by
  refine ⟨?_, ?_, ?_⟩
  · intro n h
    simp [get_engine, ha, engineLoop, h]
  · intro e1 n h1 h2
    simp [get_engine, ha, engineLoop, h1, h2]
  · intro e1 e2 h1 h2
    refine ⟨("Unable to find a usable engine; tried using: 'pyarrow', 'fastparquet'.\n"
        ++ "A suitable version of pyarrow or fastparquet is required for parquet support.\n"
        ++ "Trying to import the above resulted in these errors:")
        ++ ((("" ++ "\n - ") ++ e1 ++ "\n - ") ++ e2), ?_, ?_, ?_, ?_, ?_⟩
    · simp [get_engine, ha, engineLoop, h1, h2]
    · exact strContainsB_append_right _ _ _
        (strContainsB_append_right _ _ _
          (strContainsB_append_right _ _ _ (by decide)))
    · exact strContainsB_append_right _ _ _
        (strContainsB_append_right _ _ _
          (strContainsB_append_right _ _ _ (by decide)))
    · exact strContainsB_append_left _ _ _
        (strContainsB_append_right _ _ _
          (strContainsB_append_right _ _ _
            (strContainsB_append_left _ _ _ (strContainsB_self e1))))
    · exact strContainsB_append_left _ _ _
        (strContainsB_append_left _ _ _ (strContainsB_self e2))

/-! ## C4: empty manifest on the columnar path -/

/-- C4: on the columnar (UNLOAD) path, if the resolved data manifest is
empty, the materializer returns an empty table and the schema-recovery
function is never invoked (its invocation flag is `false`); the recovered
metadata is set to the explicit empty sequence instead. -/
theorem as_pandas_empty_manifest (rs : AthenaPandasResultSet α Meta)
    (env : PandasEnv α Meta) (eng : String)
    (hu : is_unload rs = true)
    (he : get_engine rs env = .ok eng)
    (hm : env.readDataManifest = []) :
    asPandasMat rs env =
      (.ok [], { rs with dataManifest := [], metadata := some [] },
       [], false) := by
  have hrp : read_parquet rs env eng =
      (.ok [], { rs with dataManifest := [] }, []) := by
    rw [read_parquet]
    simp [hm]
  rw [asPandasMat, if_pos hu]
  simp only [he, hrp, List.isEmpty_nil, if_true]

/-! ## C5: derivation of the effective unload root -/

theorem read_parquet_state_unloadLocation (rs : AthenaPandasResultSet α Meta)
    (env : PandasEnv α Meta) (eng : String)
    (hloc : truthyOptStr rs.unloadLocation = false)
    (hne : env.readDataManifest ≠ []) :
    (read_parquet rs env eng).2.1.unloadLocation =
      some (deriveUnloadLocation (env.readDataManifest.headD "")) := by
  cases hm : env.readDataManifest with
  | nil => exact absurd hm hne
  | cons u us =>
    rw [read_parquet]
    simp only [hm, List.headD_cons]
    rw [if_neg (by simp : ¬(((u :: us) : List String).isEmpty = true))]
    rw [if_pos hloc]
    split_ifs with h1 h2
    · rw [readParquetCall_state]
    · rw [readParquetCall_state]
    · rfl

/-- C5: on the columnar path, when no explicit unload root directory was
configured and the manifest is non-empty, the effective read root is the
parent directory of the manifest's first entry with a trailing separator
(`parentDirSep` is the spec-side formulation; the code's split/join
derivation agrees with it on any entry containing a slash). -/
theorem read_parquet_derives_root (rs : AthenaPandasResultSet α Meta)
    (env : PandasEnv α Meta) (eng : String)
    (hloc : truthyOptStr rs.unloadLocation = false)
    (hne : env.readDataManifest ≠ [])
    (hslash : '/' ∈ (env.readDataManifest.headD "").data) :
    (read_parquet rs env eng).2.1.unloadLocation =
      some (parentDirSep (env.readDataManifest.headD "")) := by
  rw [← deriveUnloadLocation_eq_parentDirSep _ hslash]
  exact read_parquet_state_unloadLocation rs env eng hloc hne

/-! ## C8: failure while reading the columnar fan-out -/

/-- C8 (amended): on any failure while reading the columnar fan-out, the
materializer fails with an operational error wrapping the originating
failure's arguments, and the message it logs before re-raising interpolates
the query execution's output location — not the effective unload read
root. -/
theorem read_parquet_failure_wraps (rs : AthenaPandasResultSet α Meta)
    (env : PandasEnv α Meta) (eng : String) (args : List String)
    (heng : eng = "pyarrow" ∨ eng = "fastparquet")
    (hne : env.readDataManifest ≠ [])
    (hfail : ∀ t e, env.readParquetFiles t e = .error args) :
    (read_parquet rs env eng).1 = .error (.operational args)
    ∧ (read_parquet rs env eng).2.2 =
        ["Failed to read " ++ pyStr rs.outputLocation ++ "."] := by
  cases hm : env.readDataManifest with
  | nil => exact absurd hm hne
  | cons u us =>
    rw [read_parquet]
    simp only [hm, List.headD_cons]
    rw [if_neg (by simp : ¬(((u :: us) : List String).isEmpty = true))]
    by_cases hloc : truthyOptStr rs.unloadLocation = false
    · rw [if_pos hloc]
      rcases heng with heng | heng <;> subst heng
      · rw [if_pos rfl]
        rw [readParquetCall_failure _ _ _ args (hfail _ _)]
        exact ⟨rfl, rfl⟩
      · rw [if_neg (by decide), if_pos rfl]
        rw [readParquetCall_failure _ _ _ args (hfail _ _)]
        exact ⟨rfl, rfl⟩
    · rw [if_neg hloc]
      rcases heng with heng | heng <;> subst heng
      · rw [if_pos rfl]
        rw [readParquetCall_failure _ _ _ args (hfail _ _)]
        exact ⟨rfl, rfl⟩
      · rw [if_neg (by decide), if_pos rfl]
        rw [readParquetCall_failure _ _ _ args (hfail _ _)]
        exact ⟨rfl, rfl⟩

/-! ## Concrete materializer states for witnesses and counterexample -/

/-- An UNLOAD-configured variant of `sampleRS` with an explicit pyarrow
engine preference (lowercase query text exercises strip/upper). -/
def sampleUnloadRS : AthenaPandasResultSet Nat Unit :=
  { sampleRS with
    query := some " unload (select 1) to target "
    unload := true
    engine := "pyarrow" }

/-- A base environment: imports fail, no content, empty manifest, all reads
succeed with empty tables. -/
def emptyManifestEnv : PandasEnv Nat Unit :=
  { importModule := fun m => .error ("No module named " ++ m)
    contentLength := none
    readDataManifest := []
    readCsv := fun _ _ _ _ => .ok []
    truncTimes := fun _ df => df
    readParquetFiles := fun _ _ => .ok []
    readSchemaPyarrow := fun _ => .ok []
    readSchemaFastparquet := fun _ => .ok [] }

/-- Environment whose manifest holds one part file. -/
def partManifestEnv : PandasEnv Nat Unit :=
  { emptyManifestEnv with
    readDataManifest := ["s3://bkt/out/part-0000.parquet"] }

/-- UNLOAD result set whose unload root is explicitly configured and differs
from the execution's output location. -/
def configuredUnloadRS : AthenaPandasResultSet Nat Unit :=
  { sampleUnloadRS with unloadLocation := some "s3://bkt/unload/" }

/-- Environment whose columnar read always fails with one argument. -/
def failingParquetEnv : PandasEnv Nat Unit :=
  { emptyManifestEnv with
    readDataManifest := ["s3://bkt/unload/part-0.parquet"]
    readParquetFiles := fun _ _ => .error ["boom"] }

/-- Result set whose output location has neither a csv nor a txt suffix. -/
def ddlRS : AthenaPandasResultSet Nat Unit :=
  { sampleRS with outputLocation := some "s3://bkt/res/1234" }

/-- Witness for C7 at the concrete non-csv/txt output location. -/
theorem read_csv_programming_iff_witness :
    ((∃ m, (read_csv ddlRS emptyManifestEnv).1 = .error (.programming m))
        ↔ truthyOptStr ddlRS.outputLocation = false)
    ∧ (truthyOptStr ddlRS.outputLocation = true →
        pyEndsWith (ddlRS.outputLocation.getD "") ".csv" = false →
        pyEndsWith (ddlRS.outputLocation.getD "") ".txt" = false →
        read_csv ddlRS emptyManifestEnv = (.ok [], [])) :=
  read_csv_programming_iff ddlRS emptyManifestEnv

/-- Witness for C6: `sampleRS` prefers `"auto"`, and in `emptyManifestEnv`
both imports fail. -/
theorem get_engine_auto_witness :
    sampleRS.engine = "auto" ∧
    ((∀ n, emptyManifestEnv.importModule "pyarrow" = .ok n →
        get_engine sampleRS emptyManifestEnv = .ok n)
     ∧ (∀ e1 n, emptyManifestEnv.importModule "pyarrow" = .error e1 →
        emptyManifestEnv.importModule "fastparquet" = .ok n →
        get_engine sampleRS emptyManifestEnv = .ok n)
     ∧ (∀ e1 e2, emptyManifestEnv.importModule "pyarrow" = .error e1 →
        emptyManifestEnv.importModule "fastparquet" = .error e2 →
        ∃ msg, get_engine sampleRS emptyManifestEnv = .error (.importError msg)
          ∧ strContainsB msg "pyarrow" = true
          ∧ strContainsB msg "fastparquet" = true
          ∧ strContainsB msg e1 = true
          ∧ strContainsB msg e2 = true)) :=
  ⟨rfl, get_engine_auto sampleRS emptyManifestEnv rfl⟩

/-- Witness for C4: UNLOAD path, explicit pyarrow engine, empty manifest. -/
theorem as_pandas_empty_manifest_witness :
    is_unload sampleUnloadRS = true
    ∧ get_engine sampleUnloadRS emptyManifestEnv = .ok "pyarrow"
    ∧ emptyManifestEnv.readDataManifest = []
    ∧ asPandasMat sampleUnloadRS emptyManifestEnv =
        (.ok [],
         { sampleUnloadRS with dataManifest := [], metadata := some [] },
         [], false) :=
  ⟨by decide, rfl, rfl,
   as_pandas_empty_manifest sampleUnloadRS emptyManifestEnv "pyarrow"
     (by decide) rfl rfl⟩

/-- Witness for C5: the spec scenario — manifest
`["s3://bkt/out/part-0000.parquet"]`, no configured root, effective root
`"s3://bkt/out/"`. -/
theorem read_parquet_derives_root_witness :
    truthyOptStr sampleUnloadRS.unloadLocation = false
    ∧ partManifestEnv.readDataManifest ≠ []
    ∧ '/' ∈ (partManifestEnv.readDataManifest.headD "").data
    ∧ (read_parquet sampleUnloadRS partManifestEnv "pyarrow").2.1.unloadLocation
        = some "s3://bkt/out/" := by
  refine ⟨rfl, by decide, by decide, ?_⟩
  rw [read_parquet_derives_root sampleUnloadRS partManifestEnv "pyarrow" rfl
    (by decide) (by decide)]
  decide

/-- Witness for C8 (amended form) at the concrete failing read. -/
theorem read_parquet_failure_wraps_witness :
    (("pyarrow" : String) = "pyarrow" ∨ ("pyarrow" : String) = "fastparquet")
    ∧ failingParquetEnv.readDataManifest ≠ []
    ∧ (∀ t e, failingParquetEnv.readParquetFiles t e = .error ["boom"])
    ∧ ((read_parquet configuredUnloadRS failingParquetEnv "pyarrow").1
        = .error (.operational ["boom"])
      ∧ (read_parquet configuredUnloadRS failingParquetEnv "pyarrow").2.2
        = ["Failed to read " ++ pyStr configuredUnloadRS.outputLocation ++ "."]) :=
  ⟨Or.inl rfl, by decide, fun _ _ => rfl,
   read_parquet_failure_wraps configuredUnloadRS failingParquetEnv "pyarrow"
     ["boom"] (Or.inl rfl) (by decide) (fun _ _ => rfl)⟩

/-- C8 counterexample: the columnar read fails at the effective root
`s3://bkt/unload/`; the operational error wraps the arguments, but the
logged message interpolates the output location and does not contain the
read root, refuting the claim that the attempted read root is logged. -/
theorem read_parquet_failure_log_counterexample :
    (read_parquet configuredUnloadRS failingParquetEnv "pyarrow").2.1.unloadLocation
      = some "s3://bkt/unload/"
    ∧ (read_parquet configuredUnloadRS failingParquetEnv "pyarrow").1
      = .error (.operational ["boom"])
    ∧ (read_parquet configuredUnloadRS failingParquetEnv "pyarrow").2.2
      = ["Failed to read s3://bkt/res/qid.csv."]
    ∧ strContainsB "Failed to read s3://bkt/res/qid.csv." "s3://bkt/unload/"
      = false :=
  ⟨rfl, rfl, rfl, by decide⟩

end PyAthenaPandas
